import Mathlib

/-!
Verification development for the ruadan configuration library
(`ruadan.go`): environment-variable configuration with CLI flag override.

Go strings are modelled as lists of runes (`List Nat`); case mapping is
modelled on the ASCII range, which covers every identifier, tag and value
the library's naming pipeline manipulates.  Floating-point field kinds are
outside the model.
-/

namespace Ruadan

/-- A Go string, as its list of runes. -/
abbrev GoString := List Nat

/-- Rune list of a Lean string literal, for concrete inputs. -/
def gs (s : String) : GoString := s.data.map Char.toNat

/-- ASCII upper-casing of one rune (model of `unicode.ToUpper`). -/
def upperRune (c : Nat) : Nat := if 97 ≤ c ∧ c ≤ 122 then c - 32 else c

/-- ASCII lower-casing of one rune (model of `unicode.ToLower`). -/
def lowerRune (c : Nat) : Nat := if 65 ≤ c ∧ c ≤ 90 then c + 32 else c

/-- Model of `unicode.IsSpace` on the Latin-1 range. -/
def isSpaceRune (c : Nat) : Bool :=
  c == 32 || c == 9 || c == 10 || c == 11 || c == 12 || c == 13 || c == 133 || c == 160

/-- Model of `strings.ContainsAny(s, ...)` for a one-rune set. -/
def containsRune : GoString → Nat → Bool
  | [], _ => false
  | c :: rest, x => if c = x then true else containsRune rest x

/-- Model of `strings.ToUpper`. -/
def goToUpper (s : GoString) : GoString := s.map upperRune

/-- Model of `strings.ToLower`. -/
def goToLower (s : GoString) : GoString := s.map lowerRune

/-- Model of `strings.TrimSpace`: drop whitespace from both ends. -/
def goTrimSpace (s : GoString) : GoString :=
  ((s.dropWhile isSpaceRune).reverse.dropWhile isSpaceRune).reverse

/-- Source `snakify`: `strings.ReplaceAll(s, " ", "_")`. -/
def snakify (s : GoString) : GoString :=
  s.map (fun c => if c = 32 then 95 else c)

/-- Source `envify`: `strings.ToUpper(snakify(strings.TrimSpace(s)))`. -/
def envify (s : GoString) : GoString := goToUpper (snakify (goTrimSpace s))

/-- Camel-casing loop of source `jsonify`: drop each underscore and
upper-case the rune right after it; `pr` is the previous rune (0 at start). -/
def camelAux : Nat → GoString → GoString
  | _, [] => []
  | pr, r :: rest =>
    if pr = 95 then upperRune r :: camelAux r rest
    else if r ≠ 95 then r :: camelAux r rest
    else camelAux r rest

/-- Source `jsonify`: trim, snakify, lower-case; return unchanged if no
underscore remains, else camel-case on underscore boundaries. -/
def jsonify (s : GoString) : GoString :=
  let str := goToLower (snakify (goTrimSpace s))
  if containsRune str 95 then camelAux 0 str else str

/-- Model of `strings.Split(s, ",")` on one-rune separator 44. -/
def splitComma : GoString → List GoString
  | [] => [[]]
  | c :: rest =>
    if c = 44 then [] :: splitComma rest
    else match splitComma rest with
      | [] => [[c]]
      | p :: ps => (c :: p) :: ps

example : splitComma (gs "1,2,3") = [gs "1", gs "2", gs "3"] := by decide
example : splitComma (gs "") = [gs ""] := by decide
example : envify (gs " test value ") = gs "TEST_VALUE" := by decide
example : jsonify (gs "test_value") = gs "testValue" := by decide
example : jsonify (gs " a") = gs "a" := by decide

/-! ## Model of the `strconv` and `time` collaborators

`strconv.ParseInt` / `ParseUint` are modelled for bases 10 and 0 (with the
`0x`/`0o`/`0b`/leading-zero prefixes of base 0).  Digit-separator
underscores of base-0 literals are outside the model and rejected.
`time.ParseDuration`'s fractional scaling (done in floating point in the
source) is modelled with exact integer truncation. -/

/-- Value of one digit rune, accepting 0-9, a-f, A-F. -/
def digitVal (c : Nat) : Option Nat :=
  if 48 ≤ c ∧ c ≤ 57 then some (c - 48)
  else if 97 ≤ c ∧ c ≤ 102 then some (c - 87)
  else if 65 ≤ c ∧ c ≤ 70 then some (c - 55)
  else none

/-- Accumulate digits of the given base; fails on a non-digit. -/
def parseDigitsAux (base : Nat) (acc : Nat) : GoString → Option Nat
  | [] => some acc
  | c :: rest =>
    match digitVal c with
    | some d => if d < base then parseDigitsAux base (acc * base + d) rest else none
    | none => none

/-- Base-prefix resolution of `strconv` with base argument 0: returns the
effective base and remaining digits (`0x`/`0X` hex, `0o`/`0O` octal,
`0b`/`0B` binary, other leading `0` octal, else decimal). -/
def resolveBase0 : GoString → Nat × GoString
  | 48 :: c :: rest =>
    if (lowerRune c = 120) ∧ rest ≠ [] then (16, rest)
    else if (lowerRune c = 111) ∧ rest ≠ [] then (8, rest)
    else if (lowerRune c = 98) ∧ rest ≠ [] then (2, rest)
    else (8, c :: rest)
  | 48 :: [] => (8, [])
  | s => (10, s)

/-- Model of `strconv.ParseUint(s, base, bits)` for base 10 or 0:
`none` on any syntax or range error. -/
def parseUintB (base bits : Nat) (s : GoString) : Option Nat :=
  if s = [] then none
  else
    let (b, ds) := if base = 0 then resolveBase0 s else (base, s)
    match parseDigitsAux b 0 ds with
    | some n => if n < 2 ^ bits then some n else none
    | none => none

/-- Model of `strconv.ParseInt(s, base, bits)` for base 10 or 0:
optional sign, then the unsigned grammar, with the signed range check. -/
def parseIntB (base bits : Nat) (s : GoString) : Option Int :=
  match s with
  | [] => none
  | c :: rest =>
    let (neg, body) : Bool × GoString :=
      if c = 45 then (true, rest) else if c = 43 then (false, rest) else (false, s)
    if body = [] then none
    else
      let (b, ds) := if base = 0 then resolveBase0 body else (base, body)
      match parseDigitsAux b 0 ds with
      | some n =>
        if neg then (if n ≤ 2 ^ (bits - 1) then some (-(n : Int)) else none)
        else (if n < 2 ^ (bits - 1) then some (n : Int) else none)
      | none => none

/-- Model of `strconv.ParseBool`: the exact accepted spellings. -/
def parseBool (s : GoString) : Option Bool :=
  if s = gs "1" ∨ s = gs "t" ∨ s = gs "T" ∨ s = gs "TRUE" ∨ s = gs "true" ∨ s = gs "True"
  then some true
  else if s = gs "0" ∨ s = gs "f" ∨ s = gs "F" ∨ s = gs "FALSE" ∨ s = gs "false" ∨ s = gs "False"
  then some false
  else none

/-- Leading decimal-digit run: value, count of digits, and the rest. -/
def leadingDigits (acc count : Nat) : GoString → Nat × Nat × GoString
  | [] => (acc, count, [])
  | c :: rest =>
    if 48 ≤ c ∧ c ≤ 57 then leadingDigits (acc * 10 + (c - 48)) (count + 1) rest
    else (acc, count, c :: rest)

/-- Unit run of `time.ParseDuration`: the leading runes that are neither
digits nor a dot. -/
def durUnitRun : GoString → GoString × GoString
  | [] => ([], [])
  | c :: rest =>
    if (48 ≤ c ∧ c ≤ 57) ∨ c = 46 then ([], c :: rest)
    else
      let (u, r) := durUnitRun rest
      (c :: u, r)

/-- Nanoseconds per duration unit; `none` for an unknown unit. -/
def durUnitScale (u : GoString) : Option Nat :=
  if u = gs "ns" then some 1
  else if u = gs "us" ∨ u = gs "µs" ∨ u = gs "μs" then some 1000
  else if u = gs "ms" then some 1000000
  else if u = gs "s" then some 1000000000
  else if u = gs "m" then some 60000000000
  else if u = gs "h" then some 3600000000000
  else none

/-- One `number unit` group loop of `time.ParseDuration`, totalling
nanoseconds; fails on bad grammar, unknown unit or 64-bit overflow.
Every iteration consumes at least one rune, so the fuel
`length + 1` supplied by `parseDuration` can never run out; the
exhausted case answers `none` only as an unreachable backstop. -/
def parseDurationLoop : Nat → Nat → GoString → Option Nat
  | _, acc, [] => some acc
  | 0, _, _ :: _ => none
  | fuel + 1, acc, c :: rest =>
    if ¬((48 ≤ c ∧ c ≤ 57) ∨ c = 46) then none
    else
      let (v, vd, s1) := leadingDigits 0 0 (c :: rest)
      let (f, fscale, s2) : Nat × Nat × GoString :=
        match s1 with
        | 46 :: t =>
          let (fv, fd, t') := leadingDigits 0 0 t
          (fv, 10 ^ fd, t')
        | _ => (0, 1, s1)
      if vd = 0 ∧ fscale = 1 then none
      else
        let (u, s3) := durUnitRun s2
        match durUnitScale u with
        | none => none
        | some unit =>
          let acc' := acc + v * unit + f * unit / fscale
          if acc' ≤ 2 ^ 63 - 1 then parseDurationLoop fuel acc' s3
          else none

/-- Model of `time.ParseDuration`: optional sign, the literal `"0"`, or a
nonempty sequence of `number unit` groups; result in nanoseconds. -/
def parseDuration (s : GoString) : Option Int :=
  let (neg, body) : Bool × GoString :=
    match s with
    | 45 :: rest => (true, rest)
    | 43 :: rest => (false, rest)
    | _ => (false, s)
  if body = gs "0" then some 0
  else if body = [] then none
  else
    match parseDurationLoop (body.length + 1) 0 body with
    | some n => some (if neg then -(n : Int) else (n : Int))
    | none => none

example : parseDuration (gs "5s") = some 5000000000 := by decide
example : parseDuration (gs "2h30m") = some 9000000000000 := by decide
example : parseDuration (gs "-1.5ms") = some (-1500000) := by decide
example : parseDuration (gs "abc") = none := by decide
example : parseIntB 10 64 (gs "42") = some 42 := by decide
example : parseIntB 10 64 (gs "0x1") = none := by decide
example : parseIntB 0 64 (gs "0x1f") = some 31 := by decide
example : parseIntB 0 64 (gs "-12") = some (-12) := by decide
example : parseIntB 0 64 (gs "abc") = none := by decide
example : parseUintB 10 8 (gs "255") = some 255 := by decide
example : parseUintB 10 8 (gs "256") = none := by decide
example : parseBool (gs "TRUE") = some true := by decide
example : parseBool (gs "yes") = none := by decide

/-! ## Typed environment lookup

The process environment is a snapshot mapping names to values. -/

/-- Environment snapshot: `os.LookupEnv` by exact, case-sensitive name. -/
abbrev Env := GoString → Option GoString

/-- Source `lookupEnvOrString`. -/
def lookupEnvOrString (env : Env) (key defaultVal : GoString) : GoString :=
  match env key with
  | some val => val
  | none => defaultVal

/-- Source `lookupEnvOrInt64`: parse failure falls back to zero, an unset
variable to the caller's default. -/
def lookupEnvOrInt64 (env : Env) (key : GoString) (defaultVal : Int) : Int :=
  match env key with
  | some val =>
    match parseIntB 10 64 val with
    | some v => v
    | none => 0
  | none => defaultVal

/-- Source `lookupEnvOrUint8` (result widened to Go `uint`). -/
def lookupEnvOrUint8 (env : Env) (key : GoString) (defaultVal : Nat) : Nat :=
  match env key with
  | some val =>
    match parseUintB 10 8 val with
    | some v => v
    | none => 0
  | none => defaultVal

/-- Source `lookupEnvOrUint16`. -/
def lookupEnvOrUint16 (env : Env) (key : GoString) (defaultVal : Nat) : Nat :=
  match env key with
  | some val =>
    match parseUintB 10 16 val with
    | some v => v
    | none => 0
  | none => defaultVal

/-- Source `lookupEnvOrUint32`. -/
def lookupEnvOrUint32 (env : Env) (key : GoString) (defaultVal : Nat) : Nat :=
  match env key with
  | some val =>
    match parseUintB 10 32 val with
    | some v => v
    | none => 0
  | none => defaultVal

/-- Source `lookupEnvOrUint64`. -/
def lookupEnvOrUint64 (env : Env) (key : GoString) (defaultVal : Nat) : Nat :=
  match env key with
  | some val =>
    match parseUintB 10 64 val with
    | some v => v
    | none => 0
  | none => defaultVal

/-- Source `lookupEnvOrDuration` (nanoseconds as `int64`). -/
def lookupEnvOrDuration (env : Env) (key : GoString) (defaultVal : Int) : Int :=
  match env key with
  | some val =>
    match parseDuration val with
    | some v => v
    | none => 0
  | none => defaultVal

/-- Source `lookupEnvOrBool`. -/
def lookupEnvOrBool (env : Env) (key : GoString) (defaultVal : Bool) : Bool :=
  match env key with
  | some val =>
    match parseBool val with
    | some v => v
    | none => false
  | none => defaultVal

/-! ## Data model: Go types, struct fields and field descriptors

A Go type is modelled by its reflection shape.  `struct` carries a flag
telling whether the type implements one of the custom textual-decoding
capabilities (`Decoder`, `Setter`, `TextUnmarshaler`, `BinaryUnmarshaler`),
and its ordered field list.  `unsupported` stands for every kind outside
the enumerated semantic set (maps, funcs, channels, complex numbers, ...).
Floating-point kinds are outside the model.  Pointer-typed values are
taken to be nil at walk time, as in a freshly zero-valued configuration
record. -/

mutual
inductive GoType where
  | bool
  | i8
  | i16
  | i32
  | i64
  | iInt
  | duration
  | u8
  | u16
  | u32
  | u64
  | uInt
  | str
  | slice (elem : GoType)
  | struct (hasCustom : Bool) (fields : GoFields)
  | ptr (elem : GoType)
  | unsupported
  deriving DecidableEq

inductive GoFields where
  | nil
  | cons (f : GoField) (rest : GoFields)
  deriving DecidableEq

inductive GoField where
  | mk (name tagEnvconfig tagEnvcli tagJson tagClidesc : GoString)
      (anonymous canSet : Bool) (type : GoType)
  deriving DecidableEq
end

/-- Field name of a struct field. -/
def GoField.name : GoField → GoString
  | .mk n _ _ _ _ _ _ _ => n

/-- The field's declared type. -/
def GoField.type : GoField → GoType
  | .mk _ _ _ _ _ _ _ t => t

/-- A plain struct field with no tags: exported, not embedded. -/
def plainField (name : GoString) (t : GoType) : GoField :=
  .mk name [] [] [] [] false true t

/-- Source `fieldMeta`: one field-resolution descriptor.  `fieldType` is
the dynamic type of `meta.Field` after the walker's pointer unwrapping. -/
structure FieldMeta where
  name : GoString
  altENV : GoString
  altCLI : GoString
  altJSON : GoString
  descCLI : GoString
  key : GoString
  fieldType : GoType
  deriving DecidableEq

/-- Source `tagCLI`: effective flag name by the fixed precedence chain. -/
def tagCLI (meta : FieldMeta) : GoString :=
  if meta.altCLI ≠ [] then meta.altCLI
  else if meta.altJSON ≠ [] then meta.altJSON
  else if meta.altENV ≠ [] then meta.altENV
  else meta.key

/-- Source `tagENV`: effective environment name by the fixed precedence
chain, upper-casing a fallback taken from another override or the key. -/
def tagENV (meta : FieldMeta) : GoString :=
  if meta.altENV ≠ [] then meta.altENV
  else if meta.altCLI ≠ [] then goToUpper meta.altCLI
  else if meta.altJSON ≠ [] then goToUpper meta.altJSON
  else goToUpper meta.key

/-! ## Schema walker (`reflectConfig`)

The walker's pointer loop on a nil pointer field allocates and enters a
pointed-to struct, and stops on a pointer to anything else. -/

/-- The walker's pointer-unwrapping loop on a zero-valued field. -/
def derefZero (t : GoType) : GoType :=
  match t with
  | .ptr (.struct hc fields) => .struct hc fields
  | _ => t

/-- Build the descriptor of one struct field, as the walker does: the env
tag is upper-cased on read, and the key is the name (replaced by the env
override when present), upper-cased. -/
def mkMeta (f : GoField) (eff : GoType) : FieldMeta :=
  match f with
  | .mk name tEnvconfig tEnvcli tJson tClidesc _ _ _ =>
    let altENV := goToUpper tEnvconfig
    let key0 := if altENV ≠ [] then altENV else name
    { name := name
      altENV := altENV
      altCLI := tEnvcli
      altJSON := tJson
      descCLI := tClidesc
      key := goToUpper key0
      fieldType := eff }

mutual
/-- Walk the fields of a struct in declaration order.  A non-settable
field is skipped.  A (possibly pointer-wrapped) struct field without a
custom decode capability has its own descriptor replaced by its
children's.  The source recurses through `reflectConfig(pre, f.Addr())`,
which never errors on a pointer-to-struct; the walk is embedded
accordingly, and the computed child prefix is dead in the source (the
`prefix` parameter is never read). -/
def walkFields : GoFields → List FieldMeta
  | .nil => []
  | .cons f rest => walkField f ++ walkFields rest

/-- Process one settable struct field. -/
def walkField : GoField → List FieldMeta
  | .mk name tEnvconfig tEnvcli tJson tClidesc anon canSet t =>
    if ¬canSet then []
    else
      let meta := mkMeta (.mk name tEnvconfig tEnvcli tJson tClidesc anon canSet t)
        (derefZero t)
      match t with
      | .struct hc fields =>
        if hc then [meta]
        else
          let _pre : GoString := if anon then [] else meta.key
          walkFields fields
      | .ptr (.struct hc fields) =>
        if hc then [meta]
        else
          let _pre : GoString := if anon then [] else meta.key
          walkFields fields
      | _ => [meta]
end

/-- Resolution errors surfaced to the caller. -/
inductive GoErr where
  | invalidConfig
  | parseError (input : GoString)
  deriving DecidableEq

/-- Source `reflectConfig`: fails with `ErrInvalidConfig` unless the input
is a pointer to a struct; its first parameter is never read in the body. -/
def reflectConfig (_pre : GoString) (cfg : GoType) : Except GoErr (List FieldMeta) :=
  match cfg with
  | .ptr (.struct _ fields) => .ok (walkFields fields)
  | _ => .error .invalidConfig

example :
    reflectConfig [] (.ptr (.struct false
      (.cons (plainField (gs "X") .iInt) .nil))) =
    .ok [{ name := gs "X", altENV := [], altCLI := [], altJSON := [],
           descCLI := [], key := gs "X", fieldType := .iInt }] := rfl

/-! ## Flag registry and value parser

One mutable flag binding per field: the flag's cell is the field's own
backing storage, so parsing the command line writes directly into the
caller's record.  The registry is the `flag.FlagSet` collaborator. -/

mutual
/-- A resolved field value. `none_` stands for storage the binder never
touches (nil pointers, structs, unsupported kinds): the Go zero value. -/
inductive GoValue where
  | vBool (b : Bool)
  | vInt (i : Int)
  | vUint (n : Nat)
  | vStr (s : GoString)
  | vSlice (elems : GoValues)
  | none_
  deriving DecidableEq

/-- Elements of a slice value. -/
inductive GoValues where
  | nil
  | cons (v : GoValue) (rest : GoValues)
  deriving DecidableEq
end

/-- Slice elements holding the given unsigned values. -/
def goValuesOfUints : List Nat → GoValues
  | [] => .nil
  | n :: rest => .cons (.vUint n) (goValuesOfUints rest)

/-- The Go zero value of a modelled type. -/
def zeroValue (t : GoType) : GoValue :=
  match t with
  | .bool => .vBool false
  | .i8 | .i16 | .i32 | .i64 | .iInt | .duration => .vInt 0
  | .u8 | .u16 | .u32 | .u64 | .uInt => .vUint 0
  | .str => .vStr []
  | .slice _ => .vSlice .nil
  | .struct _ _ | .ptr _ | .unsupported => .none_

/-- Kind of cell a registered flag parses into (`flag.BoolVar`,
`Int64Var`, `UintVar`, `StringVar`). -/
inductive FlagKind where
  | kBool
  | kInt64
  | kUint
  | kString
  deriving DecidableEq

/-- One registered flag: name, cell kind, current cell content. -/
structure FlagEntry where
  fname : GoString
  kind : FlagKind
  value : GoValue
  deriving DecidableEq

/-- The flag registry of one resolution call. -/
abbrev MFlagSet := List FlagEntry

/-- Model of `FlagSet.Var` registration: panics (`none`) on a name that
begins with a dash, contains an equals sign, or is already registered. -/
def registerVar (fs : MFlagSet) (name : GoString) (kind : FlagKind)
    (seed : GoValue) : Option MFlagSet :=
  match name with
  | 45 :: _ => none
  | _ =>
    if containsRune name 61 then none
    else if fs.any (fun e => e.fname = name) then none
    else some (fs ++ [⟨name, kind, seed⟩])

/-- Bit width of an integer kind (`field.Type().Bits()`; Go `int` and
`uint` are 64-bit here). -/
def intBits (t : GoType) : Nat :=
  match t with
  | .i8 => 8
  | .i16 => 16
  | .i32 => 32
  | .u8 => 8
  | .u16 => 16
  | .u32 => 32
  | _ => 64

/-- Single pointer unwrap done by `parseMeta` and `parseValue` (a nil
pointer is allocated first). -/
def derefOnce (t : GoType) : GoType :=
  match t with
  | .ptr e => e
  | _ => t

/-- Whether `reflect.Value.Kind()` answers `Int64` for this type
(`time.Duration`'s kind is `Int64`). -/
def isInt64Kind (t : GoType) : Bool :=
  match t with
  | .i64 | .duration => true
  | _ => false

/-- Source `parseValue`: convert text into a field's native value.  The
custom-capability probes fire only for a struct with a decode capability;
they run repository-external code, modelled as an unspecified success
(no claim depends on that branch).  The built-in switch has no default:
an unhandled kind leaves the destination at its zero value, error-free. -/
def parseValue (v : GoString) (t : GoType) : Except GoErr GoValue :=
  match t with
  | .struct true _ => .ok .none_
  | _ =>
    let t' := derefOnce t
    match t' with
    | .bool =>
      match parseBool v with
      | some b => .ok (.vBool b)
      | none => .error (.parseError v)
    | .i8 | .i16 | .i32 | .i64 | .iInt =>
      match parseIntB 0 (intBits t') v with
      | some x => .ok (.vInt x)
      | none => .error (.parseError v)
    | .duration =>
      match parseDuration v with
      | some x => .ok (.vInt x)
      | none => .error (.parseError v)
    | .u8 | .u16 | .u32 | .u64 | .uInt =>
      match parseUintB 0 (intBits t') v with
      | some x => .ok (.vUint x)
      | none => .error (.parseError v)
    | .str => .ok (.vStr v)
    | _ => .ok (zeroValue t')

/-- Parse each comma-separated piece into the element type. -/
def parseElems (elem : GoType) : List GoString → Except GoErr GoValues
  | [] => .ok .nil
  | p :: ps =>
    match parseValue p elem with
    | .error e => .error e
    | .ok v =>
      match parseElems elem ps with
      | .error e => .error e
      | .ok vs => .ok (.cons v vs)

/-- Outcome of binding one descriptor: a grown registry plus, for a
sequence field, the freshly built slice written into the field. -/
inductive PMOut where
  | ok (fs : MFlagSet) (sliceInit : Option GoValue)
  | errOut (e : GoErr)
  | panicOut
  deriving DecidableEq

/-- Register one flag, turning a duplicate-name panic into `panicOut`. -/
def regStep (fs : MFlagSet) (name : GoString) (kind : FlagKind)
    (seed : GoValue) : PMOut :=
  match registerVar fs name kind seed with
  | some fs' => .ok fs' none
  | none => .panicOut

/-- Whether the dead byte-slice special case of the source fires: the
source compares `field.Type().Kind()` (the kind of the slice itself,
always `Slice`) with `reflect.Uint8`. -/
def kindIsUint8 (t : GoType) : Bool :=
  match t with
  | .u8 => true
  | _ => false

/-- Source `parseMeta`: register one flag for a supported field, seeding
its default from the environment; sequence fields get a string flag whose
raw value is split and parsed immediately; kinds without a case in the
switch are skipped without error. -/
def parseMeta (env : Env) (fs : MFlagSet) (meta : FieldMeta) : PMOut :=
  let field := derefOnce meta.fieldType
  match field with
  | .bool =>
    regStep fs (tagCLI meta) .kBool (.vBool (lookupEnvOrBool env (tagENV meta) false))
  | .i8 | .i16 | .i32 | .i64 | .iInt | .duration =>
    if isInt64Kind meta.fieldType ∧ field = .duration then
      regStep fs (tagCLI meta) .kInt64 (.vInt (lookupEnvOrDuration env (tagENV meta) 0))
    else
      regStep fs (tagCLI meta) .kInt64 (.vInt (lookupEnvOrInt64 env (tagENV meta) 0))
  | .u8 =>
    regStep fs (tagCLI meta) .kUint (.vUint (lookupEnvOrUint8 env (tagENV meta) 0))
  | .u16 =>
    regStep fs (tagCLI meta) .kUint (.vUint (lookupEnvOrUint16 env (tagENV meta) 0))
  | .u32 =>
    regStep fs (tagCLI meta) .kUint (.vUint (lookupEnvOrUint32 env (tagENV meta) 0))
  | .u64 | .uInt =>
    regStep fs (tagCLI meta) .kUint (.vUint (lookupEnvOrUint64 env (tagENV meta) 0))
  | .str =>
    regStep fs (tagCLI meta) .kString (.vStr (lookupEnvOrString env (tagENV meta) []))
  | .slice elem =>
    let raw := lookupEnvOrString env (tagENV meta) []
    match registerVar fs (tagCLI meta) .kString (.vStr raw) with
    | none => .panicOut
    | some fs' =>
      if kindIsUint8 (.slice elem) then
        .ok fs' (some (.vSlice (goValuesOfUints raw)))
      else if goTrimSpace raw ≠ [] then
        match parseElems elem (splitComma raw) with
        | .ok vals => .ok fs' (some (.vSlice vals))
        | .error e => .errOut e
      else .ok fs' (some (.vSlice .nil))
  | _ => .ok fs none

/-! ## Command-line parsing (`flag.FlagSet.Parse`, `flag.ExitOnError`)

The flag set is created with `flag.ExitOnError`: any parse error makes
the collaborator terminate the process (exit status 2, or 0 after the
built-in help request), so the error-return path of `GetConfigFlagSet`
after `fs.Parse` is never taken on a parse failure. -/

/-- Outcome of parsing the argument list. -/
inductive ParseOutcome where
  | done (fs : MFlagSet)
  | exitP (code : Nat) (fs : MFlagSet)
  deriving DecidableEq

/-- Split a flag token at its first equals sign. -/
def splitEq : GoString → GoString × Option GoString
  | [] => ([], none)
  | c :: rest =>
    if c = 61 then ([], some rest)
    else
      let (nm, v) := splitEq rest
      (c :: nm, v)

/-- Model of one flag value's `Set`: text parsed per cell kind (the
`flag` package parses integers with base 0). -/
def setFlagText (kind : FlagKind) (text : GoString) : Option GoValue :=
  match kind with
  | .kBool => (parseBool text).map GoValue.vBool
  | .kInt64 => (parseIntB 0 64 text).map GoValue.vInt
  | .kUint => (parseUintB 0 64 text).map GoValue.vUint
  | .kString => some (.vStr text)

/-- Overwrite the cell of the named flag. -/
def updateFlag (fs : MFlagSet) (name : GoString) (nv : GoValue) : MFlagSet :=
  fs.map (fun e => if e.fname = name then { e with value := nv } else e)

/-- Find a registered flag by name. -/
def lookupFlag (fs : MFlagSet) (name : GoString) : Option FlagEntry :=
  fs.find? (fun e => e.fname == name)

/-- What processing one argument token does to the parse state. -/
inductive OneOut where
  | stop
  | exitc (code : Nat)
  | cont1 (fs : MFlagSet)
  | cont2 (fs : MFlagSet)
  deriving DecidableEq

/-- Resolve a named flag against the registry and its (possibly inline)
value, peeking at the next token list for a value-consuming flag:
`cont1` consumed only the flag token, `cont2` also the peeked value. -/
def applyFlag (fs : MFlagSet) (nm : GoString) (eqVal : Option GoString)
    (rest : List GoString) : OneOut :=
  match lookupFlag fs nm with
  | none =>
    if nm = gs "help" ∨ nm = gs "h" then .exitc 0 else .exitc 2
  | some entry =>
    if entry.kind = .kBool then
      match eqVal with
      | some v =>
        match setFlagText .kBool v with
        | some nv => .cont1 (updateFlag fs nm nv)
        | none => .exitc 2
      | none => .cont1 (updateFlag fs nm (.vBool true))
    else
      match eqVal with
      | some v =>
        match setFlagText entry.kind v with
        | some nv => .cont1 (updateFlag fs nm nv)
        | none => .exitc 2
      | none =>
        match rest with
        | [] => .exitc 2
        | v :: _ =>
          match setFlagText entry.kind v with
          | some nv => .cont2 (updateFlag fs nm nv)
          | none => .exitc 2

/-- Check a flag token's name and split an inline `=value`. -/
def handleName (fs : MFlagSet) (name : GoString) (rest : List GoString) :
    OneOut :=
  match name with
  | [] => .exitc 2
  | n0 :: _ =>
    if n0 = 45 ∨ n0 = 61 then .exitc 2
    else
      let (nm, eqVal) := splitEq name
      applyFlag fs nm eqVal rest

/-- Model of the `flag` package's `parseOne`: stop quietly at a non-flag
token or a bare double dash, reject a bad name, otherwise handle one
flag. -/
def parseOne (fs : MFlagSet) (s : GoString) (rest : List GoString) : OneOut :=
  match s with
  | [] => .stop
  | [_] => .stop
  | c0 :: c1 :: srest =>
    if c0 ≠ 45 then .stop
    else if c1 = 45 ∧ srest = [] then .stop
    else
      let name := if c1 = 45 then srest else c1 :: srest
      handleName fs name rest

/-- The `Parse` loop of the `flag` package under `flag.ExitOnError`:
stops quietly at the first non-flag argument or a bare double dash; exits
the process on a bad name, an unknown flag, a missing value or a
malformed value; a boolean flag may omit its value.  The `cont2` arm with
an empty remainder is unreachable: `parseOne` answers `exitc 2` (flag
needs an argument) when no next token exists. -/
def parseLoop (fs : MFlagSet) : List GoString → ParseOutcome
  | [] => .done fs
  | s :: rest =>
    match parseOne fs s rest with
    | .stop => .done fs
    | .exitc code => .exitP code fs
    | .cont1 fs' => parseLoop fs' rest
    | .cont2 fs' =>
      match rest with
      | [] => .done fs'
      | _ :: rest2 => parseLoop fs' rest2

/-! ## The resolution pipeline (`GetConfigFlagSet`) -/

/-- Outcome of binding the whole descriptor list. -/
inductive BindOut where
  | ok (fs : MFlagSet) (inits : List (Option GoValue))
  | errB (e : GoErr)
  | panicB
  deriving DecidableEq

/-- Bind every descriptor in order, as the `parseMeta` loop does. -/
def bindMetas (env : Env) (fs : MFlagSet) : List FieldMeta → BindOut
  | [] => .ok fs []
  | m :: rest =>
    match parseMeta env fs m with
    | .ok fs' init =>
      match bindMetas env fs' rest with
      | .ok fs'' inits => .ok fs'' (init :: inits)
      | e => e
    | .errOut e => .errB e
    | .panicOut => .panicB

/-- Cell content of the named flag, read back from the registry. -/
def flagValueOf (fs : MFlagSet) (name : GoString) : GoValue :=
  match lookupFlag fs name with
  | some e => e.value
  | none => .none_

/-- Kinds for which `parseMeta` registers a flag backed by the field's
own storage. -/
def isRegisteredScalar (t : GoType) : Bool :=
  match t with
  | .bool | .i8 | .i16 | .i32 | .i64 | .iInt | .duration
  | .u8 | .u16 | .u32 | .u64 | .uInt | .str => true
  | _ => false

/-- The field's value once resolution finishes: scalar fields read their
own flag cell (the flag writes into the caller's storage); sequence
fields hold the slice built at binding time; skipped kinds keep their
zero value.  A later CLI write through a sequence flag's unsafe string
alias is a memory-layout effect outside the model. -/
def fieldFinal (fs : MFlagSet) (meta : FieldMeta) (init : Option GoValue) : GoValue :=
  match derefOnce meta.fieldType, init with
  | .slice _, some v => v
  | t', _ => if isRegisteredScalar t' then flagValueOf fs (tagCLI meta) else zeroValue t'

/-- Field names paired with their final values, in walk order. -/
def fieldsOut (fs : MFlagSet) : List FieldMeta → List (Option GoValue) →
    List (GoString × GoValue)
  | [], _ => []
  | _ :: _, [] => []
  | m :: ms, i :: is => (m.name, fieldFinal fs m i) :: fieldsOut fs ms is

/-- Result of one `GetConfigFlagSet` call: the invalid-schema or
sequence-parse error returned to the caller, a duplicate-registration
panic, a process exit from the argument parser, or success with the
final registry and resolved fields. -/
inductive PipelineResult where
  | errRes (e : GoErr)
  | panicRes
  | exitRes (code : Nat) (fs : MFlagSet)
  | okRes (fs : MFlagSet) (fields : List (GoString × GoValue))
  deriving DecidableEq

/-- Source `GetConfigFlagSet`: walk the schema, bind every descriptor,
then parse the argument list against the registered flags. -/
def getConfigFlagSet (args : List GoString) (env : Env) (cfg : GoType) :
    PipelineResult :=
  match reflectConfig [] cfg with
  | .error e => .errRes e
  | .ok metas =>
    match bindMetas env [] metas with
    | .errB e => .errRes e
    | .panicB => .panicRes
    | .ok fs inits =>
      match parseLoop fs args with
      | .exitP code fsE => .exitRes code fsE
      | .done fs' => .okRes fs' (fieldsOut fs' metas inits)

/-- The schema of the end-to-end property: `TestString string`,
`TestInt int` with tag `envcli:"testint"`, `Pass bool`. -/
def schemaC9 : GoType :=
  .ptr (.struct false
    (.cons (plainField (gs "TestString") .str)
    (.cons (.mk (gs "TestInt") [] (gs "testint") [] [] false true .iInt)
    (.cons (plainField (gs "Pass") .bool)
    .nil))))

/-- The empty environment. -/
def emptyEnv : Env := fun _ => none

example :
    getConfigFlagSet [gs "-testint", gs "1"] emptyEnv schemaC9 =
    .okRes
      [⟨gs "TESTSTRING", .kString, .vStr []⟩,
       ⟨gs "testint", .kInt64, .vInt 1⟩,
       ⟨gs "PASS", .kBool, .vBool false⟩]
      [(gs "TestString", .vStr []),
       (gs "TestInt", .vInt 1),
       (gs "Pass", .vBool false)] := by decide

example :
    getConfigFlagSet [gs "-testint", gs "abc"] emptyEnv schemaC9 =
    .exitRes 2
      [⟨gs "TESTSTRING", .kString, .vStr []⟩,
       ⟨gs "testint", .kInt64, .vInt 0⟩,
       ⟨gs "PASS", .kBool, .vBool false⟩] := by decide

/-! ## Specification-side definitions

These follow the specification's words, for comparison against the
definitions embedded from the source. -/

/-- Effective flag name as the specification words it: explicit flag
override, else explicit display-name override, else explicit env-name
override, else the field's canonical key. -/
def specFlagName (meta : FieldMeta) : GoString :=
  if meta.altCLI ≠ [] then meta.altCLI
  else if meta.altJSON ≠ [] then meta.altJSON
  else if meta.altENV ≠ [] then meta.altENV
  else meta.key

/-- Effective env name as the specification words it: explicit env
override, else the env-styled explicit flag override, else the env-styled
explicit display override, else the env-styled canonical key, where
env-styling is `toEnvStyle` (trim, spaces to underscores, upper-case). -/
def specEnvName (meta : FieldMeta) : GoString :=
  if meta.altENV ≠ [] then meta.altENV
  else if meta.altCLI ≠ [] then envify meta.altCLI
  else if meta.altJSON ≠ [] then envify meta.altJSON
  else envify meta.key

/-- The display-style normalizer as the claim words it: lower-case,
replace spaces with underscores, then camel-case away underscores; with
no underscore left, the input comes back merely lower-cased.  No trimming
is mentioned. -/
def claimJsonify (s : GoString) : GoString :=
  let str := snakify (goToLower s)
  if containsRune str 95 then camelAux 0 str else str

/-- Whether the schema root is a pointer to a struct. -/
def isPtrToStruct (t : GoType) : Bool :=
  match t with
  | .ptr (.struct _ _) => true
  | _ => false

/-- A named (non-anonymous) nested record field `N` holding field `X`. -/
def namedNestedSchema : GoType :=
  .ptr (.struct false
    (.cons (.mk (gs "N") [] [] [] [] false true
      (.struct false (.cons (plainField (gs "X") .iInt) .nil)))
    .nil))

/-- The same inner record embedded anonymously. -/
def anonNestedSchema : GoType :=
  .ptr (.struct false
    (.cons (.mk (gs "N") [] [] [] [] true true
      (.struct false (.cons (plainField (gs "X") .iInt) .nil)))
    .nil))

/-- Flag names exposed by a schema, in registration order. -/
def flagNamesOf (cfg : GoType) : List GoString :=
  match reflectConfig [] cfg with
  | .ok metas => metas.map tagCLI
  | .error _ => []

/-- The registry state of `schemaC9` right after environment seeding with
an empty environment. -/
def seededC9 : MFlagSet :=
  [⟨gs "TESTSTRING", .kString, .vStr []⟩,
   ⟨gs "testint", .kInt64, .vInt 0⟩,
   ⟨gs "PASS", .kBool, .vBool false⟩]

/-- A descriptor whose flag override contains a space. -/
def metaSpacedCLI : FieldMeta :=
  { name := gs "F", altENV := [], altCLI := gs "my flag", altJSON := [],
    descCLI := [], key := gs "F", fieldType := .str }

/-- A descriptor carrying both a flag override and an env override. -/
def metaBothOverrides : FieldMeta :=
  { name := gs "F", altENV := gs "TESTENV", altCLI := gs "testcli",
    altJSON := [], descCLI := [], key := gs "TESTENV", fieldType := .str }

/-- Descriptor of a byte-sequence field named `Data`, as the walker
builds it. -/
def byteSliceMeta : FieldMeta :=
  { name := gs "Data", altENV := [], altCLI := [], altJSON := [],
    descCLI := [], key := gs "DATA", fieldType := .slice .u8 }

/-- Environment with `DATA=ab`. -/
def envDataAB : Env := fun k => if k = gs "DATA" then some (gs "ab") else none

/-- Environment with `DATA=1,2`. -/
def envDataOneTwo : Env := fun k => if k = gs "DATA" then some (gs "1,2") else none

/-- Environment with `K=abc`. -/
def envKAbc : Env := fun k => if k = gs "K" then some (gs "abc") else none

/-- A descriptor for a field of unsupported kind. -/
def metaUnsupported : FieldMeta :=
  { name := gs "M", altENV := [], altCLI := [], altJSON := [],
    descCLI := [], key := gs "M", fieldType := .unsupported }

/-- The descriptors the walker produces for `schemaC9`. -/
def metasC9 : List FieldMeta :=
  [{ name := gs "TestString", altENV := [], altCLI := [], altJSON := [],
     descCLI := [], key := gs "TESTSTRING", fieldType := .str },
   { name := gs "TestInt", altENV := [], altCLI := gs "testint", altJSON := [],
     descCLI := [], key := gs "TESTINT", fieldType := .iInt },
   { name := gs "Pass", altENV := [], altCLI := [], altJSON := [],
     descCLI := [], key := gs "PASS", fieldType := .bool }]

/-- The registry of `schemaC9` after the argument `-PASS` has set the
boolean flag and nothing else was parsed yet. -/
def fs1PassSet : MFlagSet :=
  [⟨gs "TESTSTRING", .kString, .vStr []⟩,
   ⟨gs "testint", .kInt64, .vInt 0⟩,
   ⟨gs "PASS", .kBool, .vBool true⟩]

/-! ## Helper lemmas on the naming normalizers -/

theorem map_eq_self_of (f : Nat → Nat) :
    ∀ s : GoString, (∀ c ∈ s, f c = c) → s.map f = s := by
  intro s h
  induction s with
  | nil => rfl
  | cons a l ih =>
    simp only [List.map_cons]
    rw [h a (by simp), ih (fun c hc => h c (by simp [hc]))]

theorem dropWhile_space_eq_self (s : GoString)
    (h : ∀ c ∈ s, isSpaceRune c = false) :
    s.dropWhile isSpaceRune = s := by
  cases s with
  | nil => rfl
  | cons a l => simp [List.dropWhile_cons, h a (by simp)]

theorem goTrimSpace_eq_self (s : GoString)
    (h : ∀ c ∈ s, isSpaceRune c = false) :
    goTrimSpace s = s := by
  unfold goTrimSpace
  rw [dropWhile_space_eq_self s h,
    dropWhile_space_eq_self s.reverse (fun c hc => h c (List.mem_reverse.mp hc)),
    List.reverse_reverse]

theorem snakify_eq_self (s : GoString)
    (h : ∀ c ∈ s, isSpaceRune c = false) :
    snakify s = s := by
  apply map_eq_self_of
  intro c hc
  have hs := h c hc
  have h32 : c ≠ 32 := by
    intro hEq
    rw [hEq] at hs
    simp [isSpaceRune] at hs
  simp [h32]

theorem envify_eq_goToUpper (s : GoString)
    (h : ∀ c ∈ s, isSpaceRune c = false) :
    envify s = goToUpper s := by
  unfold envify
  rw [goTrimSpace_eq_self s h, snakify_eq_self s h]

theorem lowerRune_snake_comm (c : Nat) :
    lowerRune (if c = 32 then 95 else c) =
    if lowerRune c = 32 then 95 else lowerRune c := by
  unfold lowerRune
  split_ifs <;> omega

theorem goToLower_snakify_comm (s : GoString) :
    goToLower (snakify s) = snakify (goToLower s) := by
  unfold goToLower snakify
  rw [List.map_map, List.map_map]
  induction s with
  | nil => rfl
  | cons a l ih =>
    simp only [List.map_cons, Function.comp_apply]
    rw [show ∀ x : GoString, lowerRune (if a = 32 then 95 else a) :: x =
      (if lowerRune a = 32 then 95 else lowerRune a) :: x from
        fun x => by rw [lowerRune_snake_comm]]
    exact congrArg _ ih

theorem lowerRune_idem (c : Nat) : lowerRune (lowerRune c) = lowerRune c := by
  unfold lowerRune
  split_ifs <;> omega

theorem goToLower_idem (s : GoString) : goToLower (goToLower s) = goToLower s := by
  unfold goToLower
  rw [List.map_map]
  induction s with
  | nil => rfl
  | cons a l ih =>
    simp only [List.map_cons, Function.comp_apply]
    rw [lowerRune_idem]
    exact congrArg _ ih

theorem containsRune_eq_false (s : GoString) (x : Nat)
    (h : ∀ c ∈ s, c ≠ x) :
    containsRune s x = false := by
  induction s with
  | nil => rfl
  | cons a l ih =>
    simp only [containsRune]
    rw [if_neg (h a (by simp))]
    exact ih (fun c hc => h c (by simp [hc]))

theorem goToLower_no_space (s : GoString)
    (h : ∀ c ∈ s, isSpaceRune c = false) :
    ∀ c ∈ goToLower s, isSpaceRune c = false := by
  intro c hc
  simp only [goToLower, List.mem_map] at hc
  obtain ⟨a, ha, rfl⟩ := hc
  have hs := h a ha
  simp only [isSpaceRune, Bool.or_eq_false_iff, beq_eq_false_iff_ne, ne_eq] at hs ⊢
  unfold lowerRune
  split_ifs <;> omega

theorem goToLower_no_underscore (s : GoString)
    (h : ∀ c ∈ s, c ≠ 95) :
    ∀ c ∈ goToLower s, c ≠ 95 := by
  intro c hc
  simp only [goToLower, List.mem_map] at hc
  obtain ⟨a, ha, rfl⟩ := hc
  have hs := h a ha
  unfold lowerRune
  split_ifs <;> omega

theorem containsRune_cons (c : Nat) (s : GoString) (x : Nat)
    (h : containsRune (c :: s) x = false) :
    c ≠ x ∧ containsRune s x = false := by
  by_cases hc : c = x
  · simp [containsRune, hc] at h
  · exact ⟨hc, by simpa [containsRune, hc] using h⟩

theorem splitEq_no_eq (s : GoString) (h : containsRune s 61 = false) :
    splitEq s = (s, none) := by
  induction s with
  | nil => rfl
  | cons c rest ih =>
    obtain ⟨hc, hrest⟩ := containsRune_cons c rest 61 h
    simp [splitEq, hc, ih hrest]

theorem splitEq_append (s v : GoString) (h : containsRune s 61 = false) :
    splitEq (s ++ 61 :: v) = (s, some v) := by
  induction s with
  | nil => simp [splitEq]
  | cons c rest ih =>
    obtain ⟨hc, hrest⟩ := containsRune_cons c rest 61 h
    simp [splitEq, hc, ih hrest]

theorem applyFlag_malformed (fs : MFlagSet) (nm v : GoString)
    (eqVal : Option GoString) (rest : List GoString) (entry : FlagEntry)
    (hlk : lookupFlag fs nm = some entry)
    (hkind : entry.kind ≠ .kBool)
    (hval : eqVal = some v ∨ (eqVal = none ∧ ∃ r, rest = v :: r))
    (hbad : setFlagText entry.kind v = none) :
    applyFlag fs nm eqVal rest = .exitc 2 := by
  rcases hval with hval | ⟨hval, r, hrest⟩
  · subst hval
    simp only [applyFlag, hlk, if_neg hkind, hbad]
  · subst hval
    subst hrest
    simp only [applyFlag, hlk, if_neg hkind, hbad]

theorem handleName_malformed (fs : MFlagSet) (n0 : Nat) (nm : GoString)
    (rest : List GoString)
    (hn0 : n0 ≠ 45)
    (hne : containsRune (n0 :: nm) 61 = false)
    (hap : applyFlag fs (n0 :: nm) none rest = .exitc 2) :
    handleName fs (n0 :: nm) rest = .exitc 2 := by
  obtain ⟨hn61, -⟩ := containsRune_cons n0 nm 61 hne
  have hb2 : ¬(n0 = 45 ∨ n0 = 61) := fun h => h.elim hn0 hn61
  simp only [handleName, if_neg hb2, splitEq_no_eq _ hne, hap]

theorem handleName_malformed_eq (fs : MFlagSet) (n0 : Nat) (nm v : GoString)
    (rest : List GoString)
    (hn0 : n0 ≠ 45)
    (hne : containsRune (n0 :: nm) 61 = false)
    (hap : applyFlag fs (n0 :: nm) (some v) rest = .exitc 2) :
    handleName fs (n0 :: (nm ++ 61 :: v)) rest = .exitc 2 := by
  obtain ⟨hn61, -⟩ := containsRune_cons n0 nm 61 hne
  have hb2 : ¬(n0 = 45 ∨ n0 = 61) := fun h => h.elim hn0 hn61
  have hsp : splitEq (n0 :: (nm ++ 61 :: v)) = (n0 :: nm, some v) := by
    have h := splitEq_append (n0 :: nm) v hne
    simpa using h
  simp only [handleName, if_neg hb2, hsp, hap]

theorem parseOne_flag_token (fs : MFlagSet) (n0 : Nat) (nm : GoString)
    (rest : List GoString) (hn0 : n0 ≠ 45) :
    parseOne fs (45 :: n0 :: nm) rest = handleName fs (n0 :: nm) rest := by
  have h45 : ¬((45 : Nat) ≠ 45) := fun h => h rfl
  have hguard : ¬(n0 = 45 ∧ nm = []) := fun h => hn0 h.1
  simp only [parseOne, if_neg h45, if_neg hguard, if_neg hn0]

theorem parseLoop_malformed_pair (fs : MFlagSet) (n0 : Nat) (nm v : GoString)
    (rest : List GoString) (entry : FlagEntry)
    (hn0 : n0 ≠ 45)
    (hne : containsRune (n0 :: nm) 61 = false)
    (hlk : lookupFlag fs (n0 :: nm) = some entry)
    (hkind : entry.kind ≠ .kBool)
    (hbad : setFlagText entry.kind v = none) :
    parseLoop fs ((45 :: n0 :: nm) :: v :: rest) = .exitP 2 fs := by
  have hap : applyFlag fs (n0 :: nm) none (v :: rest) = .exitc 2 :=
    applyFlag_malformed fs (n0 :: nm) v none (v :: rest) entry hlk hkind
      (Or.inr ⟨rfl, rest, rfl⟩) hbad
  have h1 : parseOne fs (45 :: n0 :: nm) (v :: rest) = .exitc 2 := by
    rw [parseOne_flag_token fs n0 nm (v :: rest) hn0]
    exact handleName_malformed fs n0 nm (v :: rest) hn0 hne hap
  simp only [parseLoop, h1]

theorem parseLoop_malformed_eq (fs : MFlagSet) (n0 : Nat) (nm v : GoString)
    (rest : List GoString) (entry : FlagEntry)
    (hn0 : n0 ≠ 45)
    (hne : containsRune (n0 :: nm) 61 = false)
    (hlk : lookupFlag fs (n0 :: nm) = some entry)
    (hkind : entry.kind ≠ .kBool)
    (hbad : setFlagText entry.kind v = none) :
    parseLoop fs (((45 :: n0 :: nm) ++ 61 :: v) :: rest) = .exitP 2 fs := by
  have hap : applyFlag fs (n0 :: nm) (some v) rest = .exitc 2 :=
    applyFlag_malformed fs (n0 :: nm) v (some v) rest entry hlk hkind
      (Or.inl rfl) hbad
  have h1 : parseOne fs (45 :: n0 :: (nm ++ 61 :: v)) rest = .exitc 2 := by
    rw [parseOne_flag_token fs n0 (nm ++ 61 :: v) rest hn0]
    exact handleName_malformed_eq fs n0 nm v rest hn0 hne hap
  simp only [List.cons_append]
  simp only [parseLoop, h1]

theorem jsonify_plain (s : GoString)
    (h : ∀ c ∈ s, isSpaceRune c = false ∧ c ≠ 95) :
    jsonify s = goToLower s := by
  unfold jsonify
  rw [goTrimSpace_eq_self s (fun c hc => (h c hc).1),
    snakify_eq_self s (fun c hc => (h c hc).1)]
  have hns := containsRune_eq_false (goToLower s) 95
    (goToLower_no_underscore s (fun c hc => (h c hc).2))
  simp [hns]

/-! ## Claim theorems -/

/-- C7 counterexample: on the input `" a"`, the normalizer described by
the claim (no trimming) camel-cases the leading space into `"A"`, while
the source's `jsonify` trims first and answers `"a"`. -/
theorem jsonify_claim_counterexample :
    jsonify (gs " a") ≠ claimJsonify (gs " a") := by decide

/-- C7 (amended): `jsonify` equals the claim's normalizer applied to the
trimmed input (lower-casing and space replacement commute); it maps
`"test_value"` to `"testValue"`; and it is idempotent on inputs free of
whitespace and underscores. -/
theorem jsonify_display_style :
    (∀ s, jsonify s = claimJsonify (goTrimSpace s)) ∧
    jsonify (gs "test_value") = gs "testValue" ∧
    (∀ s, (∀ c ∈ s, isSpaceRune c = false ∧ c ≠ 95) →
      jsonify (jsonify s) = jsonify s) := by
  refine ⟨?_, by decide, ?_⟩
  · intro s
    unfold jsonify claimJsonify
    rw [goToLower_snakify_comm]
  · intro s h
    rw [jsonify_plain s h]
    have h' : ∀ c ∈ goToLower s, isSpaceRune c = false ∧ c ≠ 95 := by
      intro c hc
      exact ⟨goToLower_no_space s (fun d hd => (h d hd).1) c hc,
        goToLower_no_underscore s (fun d hd => (h d hd).2) c hc⟩
    rw [jsonify_plain _ h', goToLower_idem]

/-- C7 witness: the idempotence clause applied at `"abc"`. -/
theorem jsonify_display_style_witness :
    jsonify (jsonify (gs "abc")) = jsonify (gs "abc") :=
  jsonify_display_style.2.2 (gs "abc") (by decide)

/-- C1 counterexample: for a descriptor whose flag override is
`"my flag"` and which has no env override, the claim's env-styled
fallback is `"MY_FLAG"`, but the source's `tagENV` merely upper-cases,
answering `"MY FLAG"`. -/
theorem effective_naming_counterexample :
    tagENV metaSpacedCLI ≠ specEnvName metaSpacedCLI := by decide

/-- C1 (amended): restricted to descriptors whose flag override, display
override and key contain no whitespace — there env-styling and
upper-casing coincide — the effective flag name and effective env name
follow the specification's precedence chains, and when both a flag
override and an env override are present the flag name takes the flag
override and the env name the env override: they never cross. -/
theorem effective_naming_precedence (m : FieldMeta)
    (hcli : ∀ c ∈ m.altCLI, isSpaceRune c = false)
    (hjson : ∀ c ∈ m.altJSON, isSpaceRune c = false)
    (hkey : ∀ c ∈ m.key, isSpaceRune c = false) :
    tagCLI m = specFlagName m ∧ tagENV m = specEnvName m ∧
    (m.altCLI ≠ [] → m.altENV ≠ [] →
      tagCLI m = m.altCLI ∧ tagENV m = m.altENV) := by
  refine ⟨rfl, ?_, ?_⟩
  · unfold tagENV specEnvName
    split_ifs
    · rfl
    · exact (envify_eq_goToUpper _ hcli).symm
    · exact (envify_eq_goToUpper _ hjson).symm
    · exact (envify_eq_goToUpper _ hkey).symm
  · intro h1 h2
    constructor
    · unfold tagCLI
      simp [h1]
    · unfold tagENV
      simp [h2]

/-- C1 witness: the amended precedence theorem applied to a descriptor
carrying both a flag override and an env override. -/
theorem effective_naming_precedence_witness :
    tagCLI metaBothOverrides = specFlagName metaBothOverrides ∧
    tagENV metaBothOverrides = specEnvName metaBothOverrides ∧
    (metaBothOverrides.altCLI ≠ [] → metaBothOverrides.altENV ≠ [] →
      tagCLI metaBothOverrides = metaBothOverrides.altCLI ∧
      tagENV metaBothOverrides = metaBothOverrides.altENV) :=
  effective_naming_precedence metaBothOverrides (by decide) (by decide) (by decide)

/-- C2: for each typed environment lookup, an unset variable yields the
caller's default, a set variable whose text parses yields the parsed
value, and a set variable whose text fails to parse yields the semantic
type's zero value, never the caller's default and never an error. -/
theorem lookup_env_typed_semantics (env : Env) (key : GoString) :
    ((env key = none → ∀ d, lookupEnvOrInt64 env key d = d) ∧
     (∀ v, env key = some v →
       ∀ d, lookupEnvOrInt64 env key d =
         match parseIntB 10 64 v with
         | some x => x
         | none => 0)) ∧
    ((env key = none → ∀ d, lookupEnvOrBool env key d = d) ∧
     (∀ v, env key = some v →
       ∀ d, lookupEnvOrBool env key d =
         match parseBool v with
         | some x => x
         | none => false)) ∧
    ((env key = none → ∀ d, lookupEnvOrDuration env key d = d) ∧
     (∀ v, env key = some v →
       ∀ d, lookupEnvOrDuration env key d =
         match parseDuration v with
         | some x => x
         | none => 0)) ∧
    ((env key = none → ∀ d, lookupEnvOrUint8 env key d = d) ∧
     (∀ v, env key = some v →
       ∀ d, lookupEnvOrUint8 env key d =
         match parseUintB 10 8 v with
         | some x => x
         | none => 0)) ∧
    ((env key = none → ∀ d, lookupEnvOrUint16 env key d = d) ∧
     (∀ v, env key = some v →
       ∀ d, lookupEnvOrUint16 env key d =
         match parseUintB 10 16 v with
         | some x => x
         | none => 0)) ∧
    ((env key = none → ∀ d, lookupEnvOrUint32 env key d = d) ∧
     (∀ v, env key = some v →
       ∀ d, lookupEnvOrUint32 env key d =
         match parseUintB 10 32 v with
         | some x => x
         | none => 0)) ∧
    ((env key = none → ∀ d, lookupEnvOrUint64 env key d = d) ∧
     (∀ v, env key = some v →
       ∀ d, lookupEnvOrUint64 env key d =
         match parseUintB 10 64 v with
         | some x => x
         | none => 0)) ∧
    ((env key = none → ∀ d, lookupEnvOrString env key d = d) ∧
     (∀ v, env key = some v → ∀ d, lookupEnvOrString env key d = v)) := by
  refine ⟨⟨?_, ?_⟩, ⟨?_, ?_⟩, ⟨?_, ?_⟩, ⟨?_, ?_⟩, ⟨?_, ?_⟩, ⟨?_, ?_⟩, ⟨?_, ?_⟩, ?_, ?_⟩ <;>
    first
      | (intro h d
         simp [lookupEnvOrInt64, lookupEnvOrBool, lookupEnvOrDuration,
           lookupEnvOrUint8, lookupEnvOrUint16, lookupEnvOrUint32,
           lookupEnvOrUint64, lookupEnvOrString, h])
      | (intro v hv d
         simp [lookupEnvOrInt64, lookupEnvOrBool, lookupEnvOrDuration,
           lookupEnvOrUint8, lookupEnvOrUint16, lookupEnvOrUint32,
           lookupEnvOrUint64, lookupEnvOrString, hv])

/-- C2 witness: with `K=abc` in the environment, the int64 lookup with
declared default 7 answers the zero value 0, not 7; with an empty
environment it answers the default 7. -/
theorem lookup_env_typed_semantics_witness :
    lookupEnvOrInt64 envKAbc (gs "K") 7 = 0 ∧
    lookupEnvOrInt64 emptyEnv (gs "K") 7 = 7 := by
  constructor
  · have h := (lookup_env_typed_semantics envKAbc (gs "K")).1.2 (gs "abc")
      (by decide) 7
    rw [h]
    decide
  · exact (lookup_env_typed_semantics emptyEnv (gs "K")).1.1 rfl 7

/-- C3: the walker discards a nested record's own descriptor and exposes
its children, but the computed parent-key prefix is dropped: the child
`X` of the named nested field `N` is exposed as a flag literally named
`"X"`, exactly as in the anonymous-embedded case, with no `N` prefix. -/
theorem nested_record_prefix_dropped :
    flagNamesOf namedNestedSchema = [gs "X"] ∧
    flagNamesOf anonNestedSchema = [gs "X"] := by decide

/-- C4: with a schema root that is not a pointer to a struct, the
resolution call answers `ErrInvalidConfig` at once: no flag set, no flag
registration, no field assignment appears in the result. -/
theorem invalid_config_rejected (args : List GoString) (env : Env)
    (cfg : GoType) (h : isPtrToStruct cfg = false) :
    getConfigFlagSet args env cfg = .errRes .invalidConfig := by
  cases cfg
  case ptr e =>
    cases e
    case struct hc fields => simp [isPtrToStruct] at h
    all_goals rfl
  all_goals rfl

/-- C4 witness: a plain non-pointer root and a pointer to a non-struct
are both rejected. -/
theorem invalid_config_rejected_witness :
    isPtrToStruct GoType.iInt = false ∧
    getConfigFlagSet [] emptyEnv GoType.iInt = .errRes .invalidConfig ∧
    isPtrToStruct (GoType.ptr .str) = false ∧
    getConfigFlagSet [] emptyEnv (GoType.ptr .str) = .errRes .invalidConfig :=
  ⟨by decide, invalid_config_rejected [] emptyEnv .iInt (by decide),
   by decide, invalid_config_rejected [] emptyEnv (.ptr .str) (by decide)⟩

/-- C5 counterexample: with a non-numeric value for the integer flag
`testint`, `GetConfigFlagSet` does not return a parse error to the
caller: the `flag.ExitOnError` collaborator terminates the process. -/
theorem malformed_flag_value_not_returned :
    ¬ ∃ e, getConfigFlagSet [gs "-testint", gs "abc"] emptyEnv schemaC9 =
      .errRes e := by
  intro hex
  obtain ⟨e, he⟩ := hex
  have hv : getConfigFlagSet [gs "-testint", gs "abc"] emptyEnv schemaC9 =
      .exitRes 2 seededC9 := by decide
  rw [hv] at he
  exact PipelineResult.noConfusion he

/-- Evaluation of the whole pipeline on `schemaC9` under the empty
environment, for an arbitrary argument list. -/
theorem c9_pipeline_eq (args : List GoString) :
    getConfigFlagSet args emptyEnv schemaC9 =
    match parseLoop seededC9 args with
    | .exitP c fs => .exitRes c fs
    | .done fs' => .okRes fs' (fieldsOut fs' metasC9 [none, none, none]) := rfl

/-- C5 (amended): for every valid schema (the walk and the binding both
succeed) and every argument list that, after any successfully parsed
leading arguments, supplies a malformed value for a registered
value-taking flag — as a separate token or inline after an equals sign,
with anything at all following — the resolution call terminates the
process with exit status 2 instead of returning a parse error to the
caller, and the registry at exit is exactly the pre-failure state: the
failing flag and every flag after it still hold their seeded
defaults. -/
theorem malformed_flag_value_exits
    (env : Env) (cfg : GoType) (metas : List FieldMeta)
    (fs fs1 : MFlagSet) (inits : List (Option GoValue))
    (args1 rest : List GoString) (n0 : Nat) (nm v : GoString)
    (entry : FlagEntry)
    (hr : reflectConfig [] cfg = .ok metas)
    (hb : bindMetas env [] metas = .ok fs inits)
    (hpre : ∀ tail, parseLoop fs (args1 ++ tail) = parseLoop fs1 tail)
    (hn0 : n0 ≠ 45)
    (hne : containsRune (n0 :: nm) 61 = false)
    (hlk : lookupFlag fs1 (n0 :: nm) = some entry)
    (hkind : entry.kind ≠ .kBool)
    (hbad : setFlagText entry.kind v = none) :
    getConfigFlagSet (args1 ++ (45 :: n0 :: nm) :: v :: rest) env cfg =
      .exitRes 2 fs1 ∧
    getConfigFlagSet (args1 ++ ((45 :: n0 :: nm) ++ 61 :: v) :: rest) env cfg =
      .exitRes 2 fs1 ∧
    (∀ e, getConfigFlagSet (args1 ++ (45 :: n0 :: nm) :: v :: rest) env cfg ≠
      .errRes e) := by
  have hstep1 := parseLoop_malformed_pair fs1 n0 nm v rest entry
    hn0 hne hlk hkind hbad
  have hstep2 := parseLoop_malformed_eq fs1 n0 nm v rest entry
    hn0 hne hlk hkind hbad
  have h1 : getConfigFlagSet (args1 ++ (45 :: n0 :: nm) :: v :: rest) env cfg =
      .exitRes 2 fs1 := by
    simp only [getConfigFlagSet, hr, hb, hpre, hstep1]
  have h2 : getConfigFlagSet (args1 ++ ((45 :: n0 :: nm) ++ 61 :: v) :: rest)
      env cfg = .exitRes 2 fs1 := by
    simp only [getConfigFlagSet, hr, hb, hpre, hstep2]
  refine ⟨h1, h2, ?_⟩
  intro e he
  rw [h1] at he
  exact PipelineResult.noConfusion he

/-- C5 witness: on `schemaC9`, with the boolean flag `-PASS` already
parsed, the malformed value `"abc"` for `testint` exits with status 2 in
both the two-token and the inline forms, the registry showing `PASS`
bound and the remaining flags at their seeded defaults. -/
theorem malformed_flag_value_exits_witness :
    getConfigFlagSet [gs "-PASS", gs "-testint", gs "abc"] emptyEnv schemaC9 =
      .exitRes 2 fs1PassSet ∧
    getConfigFlagSet [gs "-PASS", gs "-testint=abc"] emptyEnv schemaC9 =
      .exitRes 2 fs1PassSet :=
  ⟨(malformed_flag_value_exits emptyEnv schemaC9 metasC9 seededC9 fs1PassSet
      [none, none, none] [gs "-PASS"] [] 116 (gs "estint") (gs "abc")
      ⟨gs "testint", .kInt64, .vInt 0⟩ rfl rfl (fun _ => rfl) (by decide)
      (by decide) (by decide) (by decide) (by decide)).1,
   (malformed_flag_value_exits emptyEnv schemaC9 metasC9 seededC9 fs1PassSet
      [none, none, none] [gs "-PASS"] [] 116 (gs "estint") (gs "abc")
      ⟨gs "testint", .kInt64, .vInt 0⟩ rfl rfl (fun _ => rfl) (by decide)
      (by decide) (by decide) (by decide) (by decide)).2.1⟩

/-- C6: the byte-slice special case never fires (the source compares the
slice type's own kind with `Uint8`), so a `[]byte` field with
environment value `"ab"` is comma-split and numerically parsed — which
fails with a parse error instead of assigning the raw bytes — and the
value `"1,2"` becomes the numeric slice `[1, 2]`, not the raw bytes
`[49, 44, 50]`. -/
theorem byte_slice_case_dead :
    parseMeta envDataAB [] byteSliceMeta = .errOut (.parseError (gs "ab")) ∧
    parseMeta envDataOneTwo [] byteSliceMeta =
      .ok [⟨gs "DATA", .kString, .vStr (gs "1,2")⟩]
        (some (.vSlice (.cons (.vUint 1) (.cons (.vUint 2) .nil)))) := by decide

/-- C8: a settable field whose effective kind is outside the enumerated
semantic set is skipped silently: the registry is unchanged, no error is
produced, and the field keeps its zero value. -/
theorem unsupported_kind_skipped (env : Env) (fs : MFlagSet)
    (meta : FieldMeta) (h : derefOnce meta.fieldType = .unsupported) :
    parseMeta env fs meta = .ok fs none ∧
    ∀ fs', fieldFinal fs' meta none = zeroValue .unsupported := by
  constructor
  · unfold parseMeta
    rw [h]
  · intro fs'
    unfold fieldFinal
    rw [h]
    rfl

/-- C8 witness: the skip behavior at a concrete unsupported-kind
descriptor. -/
theorem unsupported_kind_skipped_witness :
    parseMeta emptyEnv [] metaUnsupported = .ok [] none ∧
    fieldFinal [] metaUnsupported none = zeroValue .unsupported :=
  ⟨(unsupported_kind_skipped emptyEnv [] metaUnsupported (by decide)).1,
   (unsupported_kind_skipped emptyEnv [] metaUnsupported (by decide)).2 []⟩

/-- C9: the end-to-end run of the example schema with arguments
`["-testint", "1"]` and an empty environment succeeds and resolves the
record to `TestString = ""`, `TestInt = 1`, `Pass = false`. -/
theorem end_to_end_testint :
    getConfigFlagSet [gs "-testint", gs "1"] emptyEnv schemaC9 =
    .okRes
      [⟨gs "TESTSTRING", .kString, .vStr []⟩,
       ⟨gs "testint", .kInt64, .vInt 1⟩,
       ⟨gs "PASS", .kBool, .vBool false⟩]
      [(gs "TestString", .vStr []),
       (gs "TestInt", .vInt 1),
       (gs "Pass", .vBool false)] := by decide

/-- C10: the walk's output does not depend on the prefix argument — the
source computes a child prefix and passes it, but the parameter is never
read — and a named nested record yields exactly the descriptors of the
same record embedded anonymously: no name prefixing occurs. -/
theorem reflect_config_prefix_irrelevant :
    (∀ p1 p2 cfg, reflectConfig p1 cfg = reflectConfig p2 cfg) ∧
    reflectConfig (gs "P") namedNestedSchema =
      reflectConfig [] anonNestedSchema := by
  constructor
  · intro p1 p2 cfg
    rfl
  · rfl

end Ruadan
